import Mathlib

/-!
Verification development for the snapshot-discovery subsystem
(`bzpost.py`: `HTTPConnector`, `normalize_time`, `get_snapshots`;
`bzbrowser.py`: `bounding_range`, `SnapshotCollection`).

The Python code is shallowly embedded: CPython `datetime.datetime` values
become the `Datetime` structure (with the constructor's field validation),
the HTTP layer becomes an oracle `Net : String → Nat × String` mapping a URL
to a status and a body, Python sets become lists used through membership,
and exceptions become `Except PyError`.  Listing bodies are modelled as
strings and the `SNAPSHOT_RE` pattern is implemented as a scanner over the
body's characters (Python 2 `str` semantics, where the pattern and the
response body have the same string type).
-/

/-! ### Small string utilities (for `%d`-style formatting and `int()`) -/

def digitChar : Nat → Char
  | 0 => '0' | 1 => '1' | 2 => '2' | 3 => '3' | 4 => '4'
  | 5 => '5' | 6 => '6' | 7 => '7' | 8 => '8' | _ => '9'

/-- Decimal digits of `n`, most significant first.  The first argument is
fuel; `n` itself is always enough fuel since `n` has at most `n` digits. -/
def natToCharsAux : Nat → Nat → List Char
  | 0, _ => []
  | fuel + 1, n => if n = 0 then [] else natToCharsAux fuel (n / 10) ++ [digitChar (n % 10)]

def natToChars (n : Nat) : List Char :=
  if n = 0 then ['0'] else natToCharsAux n n

def natToStr (n : Nat) : String := ⟨natToChars n⟩

/-- `"%0wd" % n` : decimal with zeros on the left up to width `w`. -/
def padZeros (w : Nat) (n : Nat) : String :=
  ⟨List.replicate (w - (natToChars n).length) '0' ++ natToChars n⟩

/-- `"%wd" % n` : decimal with spaces on the left up to width `w`
(the source's `_get_year_url` uses `"%4d"`, space padding, not `"%04d"`). -/
def padSpaces (w : Nat) (n : Nat) : String :=
  ⟨List.replicate (w - (natToChars n).length) ' ' ++ natToChars n⟩

/-- Python `int()` applied to a string of decimal digits. -/
def pyInt (s : String) : Nat :=
  s.data.foldl (fun acc c => acc * 10 + (c.toNat - 48)) 0

/-- Python 2 `\s` character class for `str` patterns. -/
def isSpaceChar (c : Char) : Bool :=
  c = ' ' || c = '\t' || c = '\n' || c = '\x0d' || c = '\x0b' || c = '\x0c'

def isDigitChar (c : Char) : Bool :=
  48 ≤ c.toNat && c.toNat ≤ 57

/-! ### The time model: CPython `datetime.date` / `datetime.datetime` -/

/-- `datetime.date`: year, month, day. -/
structure Date where
  year : Nat
  month : Nat
  day : Nat
deriving DecidableEq

/-- `datetime.datetime`: a date together with a time of day. -/
structure Datetime where
  year : Nat
  month : Nat
  day : Nat
  hour : Nat
  minute : Nat
  second : Nat
  microsecond : Nat
deriving DecidableEq

/-- Errors that can be raised by the embedded code: `ValueError`,
`TypeError` and the module's own `ConnectorException`. -/
inductive PyError
  | valueError (msg : String)
  | typeError (msg : String)
  | connectorError (msg : String)
deriving DecidableEq

def isLeapYear (y : Nat) : Bool :=
  y % 4 = 0 && (y % 100 ≠ 0 || y % 400 = 0)

def daysInMonth (y : Nat) (m : Nat) : Nat :=
  if m = 2 then (if isLeapYear y then 29 else 28)
  else if m = 4 || m = 6 || m = 9 || m = 11 then 30
  else 31

/-- The `datetime.datetime(year, month, day, hour, minute, second, microsecond)`
constructor, with CPython's argument validation (`ValueError` on a field out
of range, fields checked in the constructor's order). -/
def mkDatetime (y mo d h mi s us : Nat) : Except PyError Datetime :=
  if y < 1 || 9999 < y then .error (.valueError "year is out of range")
  else if mo < 1 || 12 < mo then .error (.valueError "month must be in 1..12")
  else if d < 1 || daysInMonth y mo < d then .error (.valueError "day is out of range for month")
  else if 23 < h then .error (.valueError "hour must be in 0..23")
  else if 59 < mi then .error (.valueError "minute must be in 0..59")
  else if 59 < s then .error (.valueError "second must be in 0..59")
  else if 999999 < us then .error (.valueError "microsecond must be in 0..999999")
  else .ok ⟨y, mo, d, h, mi, s, us⟩

/-- `datetime.datetime.date()`. -/
def dateOf (t : Datetime) : Date := ⟨t.year, t.month, t.day⟩

/-- First day of the value's month (the result of `normalize_month`). -/
def monthFloor (d : Date) : Date := ⟨d.year, d.month, 1⟩

/-- The field tuple CPython compares lexicographically when comparing two
`datetime` values. -/
def Datetime.fieldList (t : Datetime) : List Nat :=
  [t.year, t.month, t.day, t.hour, t.minute, t.second, t.microsecond]

/-- Lexicographic strict comparison of equal-length field tuples. -/
def lexLtC : List Nat → List Nat → Bool
  | [], [] => false
  | [], _ :: _ => true
  | _ :: _, [] => false
  | x :: xs, y :: ys => if x < y then true else if x = y then lexLtC xs ys else false

/-- Lexicographic non-strict comparison of equal-length field tuples. -/
def lexLeC : List Nat → List Nat → Bool
  | [], _ => true
  | _ :: _, [] => false
  | x :: xs, y :: ys => if x < y then true else if x = y then lexLeC xs ys else false

/-- Python `a < b` on `datetime` values. -/
def Datetime.ltb (a b : Datetime) : Bool := lexLtC a.fieldList b.fieldList

/-- Python `a <= b` on `datetime` values. -/
def Datetime.leb (a b : Datetime) : Bool := lexLeC a.fieldList b.fieldList

/-- `_get_hour`: the containing hour of a time, i.e.
`datetime.datetime(t.year, t.month, t.day, t.hour)`. -/
def hourFloor (t : Datetime) : Datetime :=
  ⟨t.year, t.month, t.day, t.hour, 0, 0, 0⟩

/-- `current += datetime.timedelta(hours = 1)` on a (calendar-valid)
`datetime`: bump the hour, rolling over day, month and year. -/
def addHour (t : Datetime) : Datetime :=
  if t.hour < 23 then { t with hour := t.hour + 1 }
  else if t.day < daysInMonth t.year t.month then { t with hour := 0, day := t.day + 1 }
  else if t.month < 12 then { t with hour := 0, day := 1, month := t.month + 1 }
  else { t with hour := 0, day := 1, month := 1, year := t.year + 1 }

/-- A strictly `addHour`-increasing measure, used only to size the fuel of
the hour-iteration loop (every field of a calendar-valid datetime is below
its radix: month < 13, day < 32, hour < 24). -/
def hourKey (t : Datetime) : Nat :=
  ((t.year * 13 + t.month) * 32 + t.day) * 24 + t.hour

/-- Civil date from days since the Unix epoch (standard Gregorian
calendar algorithm, used to model `datetime.datetime.fromtimestamp`). -/
def civilFromDays (z0 : Int) : Nat × Nat × Nat :=
  let z : Int := z0 + 719468
  let era : Int := z / 146097 - (if z % 146097 < 0 then 1 else 0)
  let doe : Nat := (z - era * 146097).toNat
  let yoe : Nat := (doe - doe / 1460 + doe / 36524 - doe / 146096) / 365
  let y : Int := (yoe : Int) + era * 400
  let doy : Nat := doe - (365 * yoe + yoe / 4 - yoe / 100)
  let mp : Nat := (5 * doy + 2) / 153
  let d : Nat := doy - (153 * mp + 2) / 5 + 1
  let m : Nat := if mp < 10 then mp + 3 else mp - 9
  ((y + (if m ≤ 2 then 1 else 0)).toNat, m, d)

/-- `datetime.datetime.fromtimestamp` (modelled at UTC): Unix seconds to a
civil datetime. -/
def fromtimestamp (n : Int) : Datetime :=
  let days : Int := n / 86400 - (if n % 86400 < 0 then 1 else 0)
  let secs : Nat := (n - days * 86400).toNat
  let (y, m, d) := civilFromDays days
  ⟨y, m, d, secs / 3600, secs % 3600 / 60, secs % 60, 0⟩

/-- `datetime.isoformat()` (used in the `ValueError` message of
`get_snapshots`). -/
def isoformat (t : Datetime) : String :=
  padZeros 4 t.year ++ "-" ++ padZeros 2 t.month ++ "-" ++ padZeros 2 t.day ++ "T" ++
    padZeros 2 t.hour ++ ":" ++ padZeros 2 t.minute ++ ":" ++ padZeros 2 t.second ++
    (if t.microsecond = 0 then "" else "." ++ padZeros 6 t.microsecond)

/-! ### `normalize_time` and friends -/

/-- The time representations accepted by the normalization helpers:
`int` (a Unix timestamp), `datetime.datetime`, and a date-only
`datetime.date` value.  (Python date and datetime objects are always
field-valid; any other argument type is passed through by
`normalize_time` and rejected by `normalize_date`, and is outside this
model.) -/
inductive TimeVal
  | int (n : Int)
  | dt (t : Datetime)
  | date (d : Date)
deriving DecidableEq

/-- `normalize_time(value, including)`.  The date-only arm constructs
`datetime.datetime(y, m, d, 24, 0, 0)` when `including` is set and
`datetime.datetime(y, m, d, 0, 0, 0)` otherwise, with the constructor's
validation. -/
def normalize_time (value : TimeVal) (including : Bool) : Except PyError Datetime :=
  match value with
  | .int n => .ok (fromtimestamp n)
  | .dt t => .ok t
  | .date d =>
    if including then mkDatetime d.year d.month d.day 24 0 0 0
    else mkDatetime d.year d.month d.day 0 0 0 0

/-- `normalize_date(value)` on the accepted representations (the
`TypeError` arm concerns argument types outside `TimeVal`). -/
def normalize_date (value : TimeVal) : Date :=
  match value with
  | .int n => dateOf (fromtimestamp n)
  | .dt t => dateOf t
  | .date d => d

/-! ### URLs -/

/-- `urllib.parse.urljoin(base, rel)` restricted to the shapes arising in
this module: `rel` is a non-empty relative reference without `.`/`..`
segments, so the join replaces everything after the last `/` of `base`. -/
def urljoin (base rel : String) : String :=
  if rel = "" then base
  else ⟨(base.data.reverse.dropWhile (fun c => c ≠ '/')).reverse ++ rel.data⟩

/-- `_get_year_url(year, type)`: note the `"%4d"` (space-padded) year. -/
def get_year_url (base : String) (year : Nat) (ty : String) : String :=
  urljoin base (ty ++ "/" ++ padSpaces 4 year ++ "/")

/-- `_get_month_url(month, type)`: joins `"%02d/"` onto the year URL. -/
def get_month_url (base : String) (year month : Nat) (ty : String) : String :=
  urljoin (get_year_url base year ty) (padZeros 2 month ++ "/")

/-- `_get_day_url(day, type)`: joins `"%02d/"` onto the month URL. -/
def get_day_url (base : String) (year month day : Nat) (ty : String) : String :=
  urljoin (get_month_url base year month ty) (padZeros 2 day ++ "/")

/-- The hour listing URL built inline by `_get_snapshots_in_hour`
(zero-padded `"snapshots/%04d/%02d/%02d/%02d/"` joined onto the base URL). -/
def hourListingUrl (base : String) (t : Datetime) : String :=
  urljoin base ("snapshots/" ++ padZeros 4 t.year ++ "/" ++ padZeros 2 t.month ++ "/" ++
    padZeros 2 t.day ++ "/" ++ padZeros 2 t.hour ++ "/")

/-- `_get_hour_url(hour, type)` unfolded with explicit fuel: its body calls
`self._get_hour_url(hour, type)` again with the same arguments (instead of
descending to `_get_day_url`), so no amount of fuel produces a result. -/
def get_hour_url_fuel : Nat → String → Datetime → String → Option String
  | 0, _, _, _ => none
  | fuel + 1, base, hour, ty =>
    match get_hour_url_fuel fuel base hour ty with
    | none => none
    | some inner => some (urljoin inner (padZeros 2 hour.hour ++ "/"))

/-! ### The `SNAPSHOT_RE` pattern

`href\s*=\s*"\s*((\d{4})(\d{2})(\d{2})(\d{2})(\d{2})(\d{2})(\d{3})_(.*?)_snap\.fits)\s*(/)?\s*"`

implemented as a character scanner with `finditer` semantics (leftmost
match, scan resumes after each match).  Every quantified piece of the
pattern is deterministic except the lazy `(.*?)`, which is realised by
trying the shortest tag first. -/

/-- One regex match of `SNAPSHOT_RE`: the captured groups.  `group1` is the
whole file name, `g2`–`g8` the fixed-width numeric fields (year, month,
day, hour, minute, second, and the 3-digit sub-second field), `g9` the
free-form station tag. -/
structure SnapMatch where
  group1 : String
  g2 : String
  g3 : String
  g4 : String
  g5 : String
  g6 : String
  g7 : String
  g8 : String
  g9 : String
deriving DecidableEq

/-- Match a literal string, returning the rest. -/
def matchLiteral : List Char → List Char → Option (List Char)
  | [], cs => some cs
  | _ :: _, [] => none
  | l :: ls, c :: cs => if c = l then matchLiteral ls cs else none

/-- Match a single given character. -/
def matchOne (ch : Char) : List Char → Option (List Char)
  | [] => none
  | c :: cs => if c = ch then some cs else none

/-- Match exactly `n` decimal digits, returning them and the rest. -/
def takeDigits : Nat → List Char → Option (List Char × List Char)
  | 0, cs => some ([], cs)
  | _ + 1, [] => none
  | n + 1, c :: cs =>
    if isDigitChar c then
      match takeDigits n cs with
      | some (ds, rest) => some (c :: ds, rest)
      | none => none
    else none

/-- The tail of the pattern after the tag: `_snap\.fits` then `\s*`, an
optional `/`, `\s*` and the closing quote.  Deterministic (whitespace can
never be `/` or `"`). -/
def matchSnapTail (cs : List Char) : Option (List Char) :=
  match matchLiteral "_snap.fits".data cs with
  | none => none
  | some rest =>
    let rest := rest.dropWhile isSpaceChar
    let rest := match rest with
      | '/' :: r => r
      | r => r
    let rest := rest.dropWhile isSpaceChar
    match rest with
    | '"' :: r => some r
    | _ => none

/-- The lazy `(.*?)` tag followed by `matchSnapTail`: the shortest tag (of
non-newline characters) after which the tail matches.  Returns the tag and
the rest of the input after the closing quote. -/
def matchTag : List Char → Option (List Char × List Char)
  | [] =>
    match matchSnapTail [] with
    | some rest => some ([], rest)
    | none => none
  | c :: cs' =>
    match matchSnapTail (c :: cs') with
    | some rest => some ([], rest)
    | none =>
      if c = '\n' then none
      else
        match matchTag cs' with
        | some (tag, rest) => some (c :: tag, rest)
        | none => none

/-- Attempt a `SNAPSHOT_RE` match starting exactly at the head of `cs`. -/
def tryMatchAt (cs : List Char) : Option (SnapMatch × List Char) :=
  match matchLiteral "href".data cs with
  | none => none
  | some r =>
    match matchOne '=' (r.dropWhile isSpaceChar) with
    | none => none
    | some r =>
      match matchOne '"' (r.dropWhile isSpaceChar) with
      | none => none
      | some r =>
        let r := r.dropWhile isSpaceChar
        match takeDigits 4 r with
        | none => none
        | some (d2, r) =>
          match takeDigits 2 r with
          | none => none
          | some (d3, r) =>
            match takeDigits 2 r with
            | none => none
            | some (d4, r) =>
              match takeDigits 2 r with
              | none => none
              | some (d5, r) =>
                match takeDigits 2 r with
                | none => none
                | some (d6, r) =>
                  match takeDigits 2 r with
                  | none => none
                  | some (d7, r) =>
                    match takeDigits 3 r with
                    | none => none
                    | some (d8, r) =>
                      match matchOne '_' r with
                      | none => none
                      | some r =>
                        match matchTag r with
                        | none => none
                        | some (tag, rest) =>
                          let g1 : List Char :=
                            d2 ++ d3 ++ d4 ++ d5 ++ d6 ++ d7 ++ d8 ++
                              '_' :: tag ++ "_snap.fits".data
                          some (⟨⟨g1⟩, ⟨d2⟩, ⟨d3⟩, ⟨d4⟩, ⟨d5⟩, ⟨d6⟩, ⟨d7⟩, ⟨d8⟩, ⟨tag⟩⟩, rest)

/-- `finditer` scan: try a match at every position, resuming after each
match.  The fuel is the number of remaining scan positions; the input's
length is always enough since every step consumes at least one character. -/
def findSnapshotsAux : Nat → List Char → List SnapMatch
  | 0, _ => []
  | _ + 1, [] => []
  | fuel + 1, c :: cs =>
    match tryMatchAt (c :: cs) with
    | some (m, rest) => m :: findSnapshotsAux fuel rest
    | none => findSnapshotsAux fuel cs

/-- All `SNAPSHOT_RE` matches of a listing body, in document order. -/
def findSnapshots (body : String) : List SnapMatch :=
  findSnapshotsAux body.data.length body.data

/-! ### Connector state (`HTTPConnector.__init__`) and the network oracle -/

/-- The mutable caches of one `HTTPConnector`: the base URL and the six
existence/absence sets (Python `set`s, modelled as lists used through
membership). -/
structure Conn where
  base_url : String
  existing_days : List (Date × String)
  existing_months : List (Date × String)
  existing_years : List (Nat × String)
  missing_days : List (Date × String)
  missing_months : List (Date × String)
  missing_years : List (Nat × String)
deriving DecidableEq

/-- The remote archive: a URL maps to an HTTP status and a response body. -/
def Net : Type := String → Nat × String

/-- A freshly constructed connector (all caches empty). -/
def initConn (base : String) : Conn :=
  ⟨base, [], [], [], [], [], []⟩

def add_missing_day (s : Conn) (d : Date) (ty : String) : Conn :=
  { s with missing_days := (d, ty) :: s.missing_days }

def add_missing_month (s : Conn) (m : Date) (ty : String) : Conn :=
  { s with missing_months := (m, ty) :: s.missing_months }

def add_missing_year (s : Conn) (y : Nat) (ty : String) : Conn :=
  { s with missing_years := (y, ty) :: s.missing_years }

def add_existing_day (s : Conn) (d : Date) (ty : String) : Conn :=
  { s with existing_days := (d, ty) :: s.existing_days }

def add_existing_month (s : Conn) (m : Date) (ty : String) : Conn :=
  { s with existing_months := (m, ty) :: s.existing_months }

def add_existing_year (s : Conn) (y : Nat) (ty : String) : Conn :=
  { s with existing_years := (y, ty) :: s.existing_years }

/-- `_is_day_missing(day, type)`: missing if the day's year, or the day's
month, or the day itself is recorded missing for `type` (checked in that
order, coarsest first). -/
def is_day_missing (s : Conn) (dayv : TimeVal) (ty : String) : Bool :=
  let day := normalize_date dayv
  decide ((day.year, ty) ∈ s.missing_years) ||
    decide ((monthFloor day, ty) ∈ s.missing_months) ||
    decide ((day, ty) ∈ s.missing_days)

/-- The positional arguments of a Python call to the two-parameter method
`_is_day_missing(self, day, type)`. -/
inductive DayMissingArgs
  | one (day : TimeVal)
  | two (day : TimeVal) (ty : String)

/-- Python call semantics for `_is_day_missing`: supplying a single
positional argument raises `TypeError` before the body runs. -/
def is_day_missing_call (s : Conn) : DayMissingArgs → Except PyError Bool
  | .one _ => .error (.typeError "_is_day_missing() missing 1 required positional argument: 'type'")
  | .two day ty => .ok (is_day_missing s day ty)

/-- `_is_hour_missing(hour, type)`: its body invokes `_is_day_missing`
with only the `hour` argument, never forwarding `type`. -/
def is_hour_missing (s : Conn) (hour : TimeVal) (ty : String) : Except PyError Bool := do
  let b ← is_day_missing_call s (.one hour)
  if b then pure true else pure false

/-! ### `_probe_hour` -/

/-- The year block of `_probe_hour`: report `(state, requests, continue?)`.
The fetched URL is `_get_year_url(hour.year)` — the `type` argument of the
probe is used for the cache keys but not for the URL (the source calls the
URL builders with their default `type = "snapshots"`). -/
def probe_year_stage (net : Net) (s : Conn) (hour : Datetime) (ty : String) :
    Conn × List String × Bool :=
  let year := hour.year
  if (year, ty) ∈ s.missing_years then (s, [], false)
  else if (year, ty) ∈ s.existing_years then (s, [], true)
  else
    let url := get_year_url s.base_url year "snapshots"
    if (net url).1 = 200 then (add_existing_year s year ty, [url], true)
    else (add_missing_year s year ty, [url], false)

/-- The month block of `_probe_hour`. -/
def probe_month_stage (net : Net) (s : Conn) (hour : Datetime) (ty : String) :
    Conn × List String × Bool :=
  let mon := monthFloor (dateOf hour)
  if (mon, ty) ∈ s.missing_months then (s, [], false)
  else if (mon, ty) ∈ s.existing_months then (s, [], true)
  else
    let url := get_month_url s.base_url hour.year hour.month "snapshots"
    if (net url).1 = 200 then (add_existing_month s mon ty, [url], true)
    else (add_missing_month s mon ty, [url], false)

/-- The day block of `_probe_hour`. -/
def probe_day_stage (net : Net) (s : Conn) (hour : Datetime) (ty : String) :
    Conn × List String :=
  let day := dateOf hour
  if (day, ty) ∈ s.missing_days then (s, [])
  else if (day, ty) ∈ s.existing_days then (s, [])
  else
    let url := get_day_url s.base_url hour.year hour.month hour.day "snapshots"
    if (net url).1 = 200 then (add_existing_day s day ty, [url])
    else (add_missing_day s day ty, [url])

/-- `_probe_hour(hour, type)`: walk year, then month, then day; at each
level a known-missing record stops the probe, a known-existing record skips
the fetch, and otherwise one non-fatal fetch records the outcome.  Returns
the updated caches and the URLs fetched, in order. -/
def probe_hour (net : Net) (s : Conn) (hour : Datetime) (ty : String) :
    Conn × List String :=
  let y := probe_year_stage net s hour ty
  if y.2.2 then
    let m := probe_month_stage net y.1 hour ty
    if m.2.2 then
      let d := probe_day_stage net m.1 hour ty
      (d.1, y.2.1 ++ m.2.1 ++ d.2)
    else (m.1, y.2.1 ++ m.2.1)
  else (y.1, y.2.1)

/-! ### `_get_snapshots_in_hour` and `get_snapshots` -/

/-- `SnapshotEntry`: file name, timestamp and resolved URL (the
`connector` attribute, a back-reference to `self`, is not part of the
value model). -/
structure SnapshotEntry where
  file_name : String
  time : Datetime
  url : String
deriving DecidableEq

/-- The `value_fn` of `_get_snapshots_in_hour` applied to one match:
`datetime.datetime(int(g2), int(g3), int(g4), int(g5), int(g6), int(g7))`
— six arguments, so the sub-second group `g8` is not passed and the
constructed timestamp has `microsecond = 0`. -/
def parseSnapMatch (m : SnapMatch) : Except PyError Datetime :=
  mkDatetime (pyInt m.g2) (pyInt m.g3) (pyInt m.g4) (pyInt m.g5) (pyInt m.g6) (pyInt m.g7) 0

/-- Decidable form of "this match's timestamp parses and lies in hour `h`"
(used as the archive-consistency hypothesis of the amended C1 statement). -/
def parsesToHour (m : SnapMatch) (h : Datetime) : Bool :=
  match parseSnapMatch m with
  | .ok t => hourFloor t == h
  | .error _ => false

/-- Turn the matches of one listing into `SnapshotEntry` values, in
document order: each entry resolves `group1` against the listing URL; a
match whose fields do not form a valid datetime raises `ValueError`
mid-iteration (entries yielded before it are kept). -/
def buildEntries (dirUrl : String) : List SnapMatch → List SnapshotEntry × Option PyError
  | [] => ([], none)
  | m :: ms =>
    let u := urljoin dirUrl m.group1
    match parseSnapMatch m with
    | .error e => ([], some e)
    | .ok t =>
      let r := buildEntries dirUrl ms
      (⟨m.group1, t, u⟩ :: r.1, r.2)

/-- `_get_snapshots_in_hour(hour)`: skip with no request if
`_is_day_missing(hour, "snapshots")`; otherwise fetch the hour listing
(one request).  A non-200 status raises `ConnectorException`; the `except`
block runs `_probe_hour(hour)` (with its default `type = "snapshots"`) and
re-raises.  On a 200 the body's `SNAPSHOT_RE` matches are yielded.
Returns `((entries, raised error), state, requested URLs)`. -/
def snapshotsInHour (net : Net) (s : Conn) (hour : Datetime) :
    (List SnapshotEntry × Option PyError) × Conn × List String :=
  if is_day_missing s (.dt hour) "snapshots" then (([], none), s, [])
  else
    let url := hourListingUrl s.base_url hour
    if (net url).1 = 200 then
      (buildEntries url (findSnapshots (net url).2), s, [url])
    else
      let pr := probe_hour net s hour "snapshots"
      (([], some (.connectorError ("Response status: " ++ natToStr (net url).1))), pr.1,
        url :: pr.2)

/-- `_iter_hours(from_time, to_time)` loop body, with explicit fuel: while
`current <= to_time`, yield `current` and add one hour. -/
def iterHoursFuel : Nat → Datetime → Datetime → List Datetime
  | 0, _, _ => []
  | fuel + 1, cur, toT =>
    if Datetime.leb cur toT then cur :: iterHoursFuel fuel (addHour cur) toT
    else []

/-- `_iter_hours(from_time, to_time)`: hour-aligned buckets from
`_get_hour(from_time)` to `_get_hour(to_time)` inclusive.  The fuel bounds
the loop's iteration count: `hourKey` grows by at least one per `addHour`
step and, for calendar-valid datetimes, the guard `current <= to_time`
implies `hourKey current ≤ hourKey to_time`. -/
def iterHours (fromT toT : Datetime) : List Datetime :=
  iterHoursFuel (hourKey (hourFloor toT) + 1 - hourKey (hourFloor fromT))
    (hourFloor fromT) (hourFloor toT)

/-- Whether the hour loop of `get_snapshots` proceeds to the next hour:
it does when the hour raised nothing, or raised the `ConnectorException`
caught by the loop's `except` clause; any other exception propagates. -/
def continuesAfter : Option PyError → Bool
  | none => true
  | some (.connectorError _) => true
  | some (.valueError _) => false
  | some (.typeError _) => false

/-- The hour loop of `get_snapshots`: each hour runs
`_get_snapshots_in_hour`; a raised `ConnectorException` is caught and the
loop continues with the next hour; any other exception propagates,
terminating the iteration (entries already yielded are kept).  Returns
`((entries, uncaught error), state, requested URLs)`. -/
def runHours (net : Net) : Conn → List Datetime → (List SnapshotEntry × Option PyError) × Conn × List String
  | s, [] => (([], none), s, [])
  | s, h :: rest =>
    let r := snapshotsInHour net s h
    if continuesAfter r.1.2 then
      let r2 := runHours net r.2.1 rest
      ((r.1.1 ++ r2.1.1, r2.1.2), r2.2.1, r.2.2 ++ r2.2.2)
    else ((r.1.1, r.1.2), r.2.1, r.2.2)

/-- `get_snapshots(from_date, to_date)`: `to_date` defaults to
`datetime.datetime.now()` (the `now` parameter); both bounds are passed
through `normalize_time`; if `from_date >= to_date` a `ValueError` is
raised before any hour is attempted; otherwise the hour buckets of
`_iter_hours` are processed in order. -/
def get_snapshots (net : Net) (now : Datetime) (s : Conn) (from_date : TimeVal)
    (to_date : Option TimeVal) :
    Except PyError ((List SnapshotEntry × Option PyError) × Conn × List String) :=
  let to_v := to_date.getD (.dt now)
  match normalize_time from_date false, normalize_time to_v false with
  | .ok fromT, .ok toT =>
    if Datetime.leb toT fromT then
      .error (.valueError ("Starting date (" ++ isoformat fromT ++
        ") is equal or after the final date (" ++ isoformat toT ++ ")."))
    else
      .ok (runHours net s (iterHours fromT toT))
  | .error e, _ => .error e
  | _, .error e => .error e

/-! ### The collector (`bzbrowser.py`) -/

/-- `bounding_range(r1, r2)`: `zip` the endpoints, `min` of the starts and
`max` of the ends (the source's variadic function at its binary use). -/
def bounding_range (r1 r2 : Int × Int) : Int × Int :=
  (min r1.1 r2.1, max r1.2 r2.2)

/-- The discovery invocations of `SnapshotCollection._cover(a, b)`: the
guard `if not a < b: return` drops empty sub-ranges, otherwise
`source.get_snapshots` is invoked once for `(a, b)`. -/
def coverCalls (a b : Int) : List (Int × Int) :=
  if a < b then [(a, b)] else []

/-- One iteration of the coordinator loop of `SnapshotCollection.async` on
a drained request: returns the new covered range and the list of ranges
discovery is invoked for.  With no covered range, cover the request
directly; otherwise cover only the two deltas between the bounding union
and the old range. -/
def processRequest (covered : Option (Int × Int)) (req : Int × Int) :
    Option (Int × Int) × List (Int × Int) :=
  match covered with
  | none => (some req, coverCalls req.1 req.2)
  | some old =>
    let new_range := bounding_range old req
    (some new_range, coverCalls new_range.1 old.1 ++ coverCalls old.2 new_range.2)

/-- Fold `processRequest` over a sequence of coordinator iterations,
collecting every discovery invocation. -/
def processRequests (covered : Option (Int × Int)) : List (Int × Int) →
    Option (Int × Int) × List (Int × Int)
  | [] => (covered, [])
  | req :: rest =>
    match processRequest covered req with
    | (c2, calls) =>
      match processRequests c2 rest with
      | (c3, calls2) => (c3, calls ++ calls2)

/-! ### Concrete fixture: the archive of §8's scenario

Base URL `http://archive.example/`, kind `snapshots`, one populated hour
directory `snapshots/2015/01/04/03/` containing the file
`20150104030000123_sta_snap.fits`; the year, month and day listing levels
of that hour exist; every other URL answers 404. -/

def fixtureBase : String := "http://archive.example/"

def fixtureBody : String :=
  "<a href=\"20150104030000123_sta_snap.fits\">20150104030000123_sta_snap.fits</a>"

def fixtureNet : Net := fun url =>
  if url = "http://archive.example/snapshots/2015/01/04/03/" then (200, fixtureBody)
  else if url = "http://archive.example/snapshots/2015/" then (200, "")
  else if url = "http://archive.example/snapshots/2015/01/" then (200, "")
  else if url = "http://archive.example/snapshots/2015/01/04/" then (200, "")
  else (404, "")

/-- The one `SnapshotEntry` the fixture archive yields: note the timestamp
`2015-01-04T03:00:00.000000` — the file name's `123` sub-second field is
captured by the pattern but not passed to the datetime constructor. -/
def fixtureEntry : SnapshotEntry :=
  ⟨"20150104030000123_sta_snap.fits", ⟨2015, 1, 4, 3, 0, 0, 0⟩,
    "http://archive.example/snapshots/2015/01/04/03/20150104030000123_sta_snap.fits"⟩

/-- The entries delivered by a `get_snapshots` run (empty when the call
raised before iterating). -/
def entriesOf (r : Except PyError ((List SnapshotEntry × Option PyError) × Conn × List String)) :
    List SnapshotEntry :=
  match r with
  | .ok ((es, _), _, _) => es
  | .error _ => []

/-- The fixture run of C2: `get_snapshots` over
2015-01-04T00:00 .. 2015-01-04T06:00 (both given as datetimes). -/
def c2Run : Except PyError ((List SnapshotEntry × Option PyError) × Conn × List String) :=
  get_snapshots fixtureNet ⟨2015, 1, 1, 0, 0, 0, 0⟩ (initConn fixtureBase)
    (.dt ⟨2015, 1, 4, 0, 0, 0, 0⟩) (some (.dt ⟨2015, 1, 4, 6, 0, 0, 0⟩))

/-- The fixture run of the C1 counterexample: `get_snapshots` over
`a` = 2015-01-04T03:30 .. `b` = 2015-01-04T05:00; the hour-03 bucket is the
first bucket and its file's timestamp 03:00:00 precedes `a`. -/
def c1Run : Except PyError ((List SnapshotEntry × Option PyError) × Conn × List String) :=
  get_snapshots fixtureNet ⟨2015, 1, 1, 0, 0, 0, 0⟩ (initConn fixtureBase)
    (.dt ⟨2015, 1, 4, 3, 30, 0, 0⟩) (some (.dt ⟨2015, 1, 4, 5, 0, 0, 0⟩))

/-! ### Definitions for the cache-invariant development (claims C4, C5) -/

/-- Monotone cache extension: the base URL is unchanged and every record of
every cache set is preserved. -/
def cacheExtends (s s' : Conn) : Prop :=
  s'.base_url = s.base_url ∧
  (∀ x, x ∈ s.existing_days → x ∈ s'.existing_days) ∧
  (∀ x, x ∈ s.existing_months → x ∈ s'.existing_months) ∧
  (∀ x, x ∈ s.existing_years → x ∈ s'.existing_years) ∧
  (∀ x, x ∈ s.missing_days → x ∈ s'.missing_days) ∧
  (∀ x, x ∈ s.missing_months → x ∈ s'.missing_months) ∧
  (∀ x, x ∈ s.missing_years → x ∈ s'.missing_years)

/-- The reachability invariant of the existence cache: a day recorded
missing always has its year and its month recorded existing (for the same
kind), because `_probe_hour` can only reach its day block after resolving
the year and month levels as existing. -/
def CacheInv (s : Conn) : Prop :=
  ∀ d ty, (d, ty) ∈ s.missing_days →
    (d.year, ty) ∈ s.existing_years ∧ (monthFloor d, ty) ∈ s.existing_months

/-- States of one connector reachable from a fresh connector through the
cache-touching operations the module exposes and uses: hour probes and
`get_snapshots` calls, each against an arbitrary network. -/
inductive Reachable (base : String) : Conn → Prop
  | init : Reachable base (initConn base)
  | probe {s : Conn} (net : Net) (hour : Datetime) (ty : String) :
      Reachable base s → Reachable base (probe_hour net s hour ty).1
  | snaps {s : Conn} {r} (net : Net) (now : Datetime) (fv : TimeVal) (tv : Option TimeVal) :
      Reachable base s → get_snapshots net now s fv tv = .ok r →
      Reachable base r.2.1

/-- The network of the C5 witness: the 2015 year and January listings
exist, everything else (including the day listing) answers 404, so a
probe records the day missing. -/
def c5net : Net := fun url =>
  if url = "http://archive.example/snapshots/2015/" then (200, "")
  else if url = "http://archive.example/snapshots/2015/01/" then (200, "")
  else (404, "")

/-- The reachable witness state: a fresh connector after one hour probe
against `c5net`, which records 2015-01-04 missing (and the year and month
existing). -/
def c5state : Conn :=
  (probe_hour c5net (initConn fixtureBase) ⟨2015, 1, 4, 0, 0, 0, 0⟩ "snapshots").1

/-! ### Claims C2, C1 (counterexamples), C3, C6, C7, C8, C9, C10 -/

/-- C2, counterexample: on the fixture archive, `get_snapshots` over
2015-01-04T00:00..06:00 does not yield an entry with timestamp
2015-01-04T03:00:00.123 — the timestamp list of the run differs from the
claimed one (the 3-digit sub-second field is captured by `SNAPSHOT_RE` but
never passed to the datetime constructor). -/
theorem c2_counterexample :
    (entriesOf c2Run).map SnapshotEntry.time ≠ [⟨2015, 1, 4, 3, 0, 0, 123000⟩] := by
  decide

/-- C2, amended: the fixture run yields exactly one `SnapshotEntry`; its
timestamp is 2015-01-04T03:00:00.000000 (the sub-second field of the file
name is dropped), and its URL is the hour directory URL joined with the
file name. -/
theorem c2_fixture_amended :
    entriesOf c2Run = [fixtureEntry] ∧
    fixtureEntry.time = ⟨2015, 1, 4, 3, 0, 0, 0⟩ ∧
    fixtureEntry.url =
      urljoin (hourListingUrl fixtureBase ⟨2015, 1, 4, 3, 0, 0, 0⟩) fixtureEntry.file_name := by
  refine ⟨by decide, rfl, by decide⟩

/-- C1, counterexample: for `a` = 2015-01-04T03:30 < `b` = 2015-01-04T05:00
on the fixture archive, `get_snapshots(a, b)` yields an entry whose
timestamp 03:00:00 is strictly before `a` — no `[a, b)` filtering is
performed on the yielded records. -/
theorem c1_counterexample :
    Datetime.ltb ⟨2015, 1, 4, 3, 30, 0, 0⟩ ⟨2015, 1, 4, 5, 0, 0, 0⟩ = true ∧
    entriesOf c1Run = [fixtureEntry] ∧
    Datetime.ltb fixtureEntry.time ⟨2015, 1, 4, 3, 30, 0, 0⟩ = true := by
  refine ⟨by decide, by decide, by decide⟩

/-- C3: with a covered range `(oldA, oldB)` and a request `(a, b)`, the
coordinator sets the covered range to the bounding union
`(min a oldA, max b oldB)` and invokes discovery exactly for the delta
sub-ranges `(newA, oldA)` and `(oldB, newB)` that pass the `a < b` guard —
never for the interior; concretely, `cover(5,10)` then `cover(8,15)` ends
with covered range `(5,15)` and the second request triggers discovery only
for `(10,15)`. -/
theorem c3_cover_union :
    (∀ oldA oldB a b : Int,
      processRequest (some (oldA, oldB)) (a, b) =
        (some (min a oldA, max b oldB),
          coverCalls (min a oldA) oldA ++ coverCalls oldB (max b oldB)) ∧
      ∀ c ∈ (processRequest (some (oldA, oldB)) (a, b)).2,
        c = (min a oldA, oldA) ∨ c = (oldB, max b oldB)) ∧
    processRequests none [(5, 10), (8, 15)] = (some (5, 15), [(5, 10), (10, 15)]) := by
  constructor
  · intro oldA oldB a b
    constructor
    · simp [processRequest, bounding_range, min_comm, max_comm]
    · intro c hc
      simp only [processRequest, bounding_range, coverCalls] at hc
      rcases List.mem_append.mp hc with h | h
      · left
        split at h
        · simpa [min_comm] using List.mem_singleton.mp h
        · simp at h
      · right
        split at h
        · simpa [max_comm] using List.mem_singleton.mp h
        · simp at h
  · decide

/-- C7: a cover request identical to the already-covered range is a no-op:
the covered range stays `(a, b)` and both delta sub-ranges are empty, so
discovery is invoked zero times for it; concretely `cover(10,20)` twice
from scratch ends covered at `(10,20)` with a single discovery call for
the first request only. -/
theorem c7_cover_idempotent :
    (∀ a b : Int, processRequest (some (a, b)) (a, b) = (some (a, b), [])) ∧
    processRequests none [(10, 20), (10, 20)] = (some (10, 20), [(10, 20)]) := by
  constructor
  · intro a b
    simp [processRequest, bounding_range, coverCalls]
  · decide

/-- C8: `normalize_time` on a calendar-date-only value with
`including = True` does not return the 24:00 instant of that day — the
`datetime.datetime(y, m, d, 24, 0, 0)` call raises `ValueError` because
the constructor requires `hour` in 0..23; without `including` the midnight
instant is returned as documented. -/
theorem c8_end_of_day_bug :
    normalize_time (.date ⟨2015, 1, 4⟩) true = .error (.valueError "hour must be in 0..23") ∧
    normalize_time (.date ⟨2015, 1, 4⟩) false = .ok ⟨2015, 1, 4, 0, 0, 0, 0⟩ := by
  refine ⟨rfl, rfl⟩

/-- C9: `_is_hour_missing(hour, type)` calls `_is_day_missing(hour)` with
a single positional argument and never forwards `type`, so every call
fails with an arity `TypeError` instead of returning a boolean. -/
theorem c9_hour_missing_arity (s : Conn) (hour : TimeVal) (ty : String) :
    is_hour_missing s hour ty =
      .error (.typeError "_is_day_missing() missing 1 required positional argument: 'type'") :=
  rfl

/-- C10: `_get_hour_url` unconditionally calls itself with the same
arguments instead of descending to `_get_day_url`, so no amount of fuel
makes the call return: the unfolding yields `none` for every fuel. -/
theorem c10_get_hour_url_diverges (fuel : Nat) (base : String) (hour : Datetime) (ty : String) :
    get_hour_url_fuel fuel base hour ty = none := by
  induction fuel with
  | zero => rfl
  | succ n ih => simp [get_hour_url_fuel, ih]

/-- C6: after normalization (with `to_date` defaulting to the current
instant when omitted), `from_date >= to_date` makes `get_snapshots` raise
the `ValueError` before any hour is attempted (the call returns the error
alone: no entries, no state change, no request); omitting `to_date` is the
same call as passing the current instant. -/
theorem c6_invalid_range (net : Net) (now : Datetime) (s : Conn) (fv : TimeVal) :
    (∀ (tv : Option TimeVal) (fromT toT : Datetime),
      normalize_time fv false = .ok fromT →
      normalize_time (tv.getD (.dt now)) false = .ok toT →
      Datetime.leb toT fromT = true →
      get_snapshots net now s fv tv =
        .error (.valueError ("Starting date (" ++ isoformat fromT ++
          ") is equal or after the final date (" ++ isoformat toT ++ ")."))) ∧
    get_snapshots net now s fv none = get_snapshots net now s fv (some (.dt now)) := by
  constructor
  · intro tv fromT toT h1 h2 h3
    simp only [get_snapshots, h1, h2]
    simp [h3]
  · rfl

/-- C6, witness: `get_snapshots` with equal normalized bounds fails with
the `ValueError`. -/
theorem c6_invalid_range_witness :
    get_snapshots fixtureNet ⟨2015, 1, 1, 0, 0, 0, 0⟩ (initConn fixtureBase)
        (.dt ⟨2015, 1, 4, 0, 0, 0, 0⟩) (some (.dt ⟨2015, 1, 4, 0, 0, 0, 0⟩)) =
      .error (.valueError ("Starting date (" ++ isoformat ⟨2015, 1, 4, 0, 0, 0, 0⟩ ++
        ") is equal or after the final date (" ++ isoformat ⟨2015, 1, 4, 0, 0, 0, 0⟩ ++ ").")) :=
  (c6_invalid_range fixtureNet ⟨2015, 1, 1, 0, 0, 0, 0⟩ (initConn fixtureBase)
      (.dt ⟨2015, 1, 4, 0, 0, 0, 0⟩)).1
    (some (.dt ⟨2015, 1, 4, 0, 0, 0, 0⟩)) _ _ rfl rfl (by decide)

/-! ### Order lemmas for the hour iteration -/

theorem lexLeC_refl : ∀ xs, lexLeC xs xs = true
  | [] => rfl
  | x :: xs => by simp [lexLeC, lexLeC_refl xs]

theorem lexLtC_imp_leC : ∀ xs ys, lexLtC xs ys = true → lexLeC xs ys = true
  | [], [], h => rfl
  | [], _ :: _, _ => rfl
  | _ :: _, [], h => by simp [lexLtC] at h
  | x :: xs, y :: ys, h => by
    simp only [lexLtC, lexLeC] at *
    by_cases hlt : x < y
    · simp [hlt]
    · rw [if_neg hlt] at h ⊢
      by_cases heq : x = y
      · rw [if_pos heq] at h ⊢
        exact lexLtC_imp_leC xs ys h
      · rw [if_neg heq] at h
        exact absurd h (by simp)

theorem lexLeC_trans : ∀ xs ys zs, lexLeC xs ys = true → lexLeC ys zs = true →
    lexLeC xs zs = true
  | [], _, _, _, _ => rfl
  | _ :: _, [], _, h1, _ => by simp [lexLeC] at h1
  | _ :: _, _ :: _, [], _, h2 => by simp [lexLeC] at h2
  | x :: xs, y :: ys, z :: zs, h1, h2 => by
    simp only [lexLeC] at *
    by_cases h1a : x < y
    · by_cases h2a : y < z
      · simp [show x < z from lt_trans h1a h2a]
      · rw [if_neg h2a] at h2
        by_cases h2b : y = z
        · simp [show x < z by omega]
        · rw [if_neg h2b] at h2
          exact absurd h2 (by simp)
    · rw [if_neg h1a] at h1
      by_cases h1b : x = y
      · subst h1b
        rw [if_pos rfl] at h1
        by_cases h2a : x < z
        · simp [h2a]
        · rw [if_neg h2a] at h2 ⊢
          by_cases h2b : x = z
          · rw [if_pos h2b] at h2 ⊢
            exact lexLeC_trans xs ys zs h1 h2
          · rw [if_neg h2b] at h2
            exact absurd h2 (by simp)
      · rw [if_neg h1b] at h1
        exact absurd h1 (by simp)

theorem leb_refl (t : Datetime) : Datetime.leb t t = true :=
  lexLeC_refl _

theorem leb_trans {a b c : Datetime} (h1 : Datetime.leb a b = true)
    (h2 : Datetime.leb b c = true) : Datetime.leb a c = true :=
  lexLeC_trans _ _ _ h1 h2

theorem ltb_imp_leb {a b : Datetime} (h : Datetime.ltb a b = true) :
    Datetime.leb a b = true :=
  lexLtC_imp_leC _ _ h

/-- One `timedelta(hours = 1)` step is strictly later. -/
theorem ltb_addHour (t : Datetime) : Datetime.ltb t (addHour t) = true := by
  rw [addHour]
  by_cases h1 : t.hour < 23
  · simp [h1, Datetime.ltb, Datetime.fieldList, lexLtC, Nat.lt_succ_self]
  · rw [if_neg h1]
    by_cases h2 : t.day < daysInMonth t.year t.month
    · simp [h2, Datetime.ltb, Datetime.fieldList, lexLtC, Nat.lt_succ_self]
    · rw [if_neg h2]
      by_cases h3 : t.month < 12
      · simp [h3, Datetime.ltb, Datetime.fieldList, lexLtC, Nat.lt_succ_self]
      · rw [if_neg h3]
        simp [Datetime.ltb, Datetime.fieldList, lexLtC, Nat.lt_succ_self]

/-- The hour floor of a time is never later than the time. -/
theorem leb_hourFloor (t : Datetime) : Datetime.leb (hourFloor t) t = true := by
  simp only [Datetime.leb, Datetime.fieldList, hourFloor, lexLeC, lt_irrefl, if_neg, if_pos,
    lt_self_iff_false, if_false, if_true]
  by_cases h1 : 0 < t.minute
  · simp [h1]
  · rw [if_neg h1]
    rw [if_pos (by omega : 0 = t.minute)]
    by_cases h2 : 0 < t.second
    · simp [h2]
    · rw [if_neg h2]
      rw [if_pos (by omega : 0 = t.second)]
      by_cases h3 : 0 < t.microsecond
      · simp [h3]
      · rw [if_neg h3]
        rw [if_pos (by omega : 0 = t.microsecond)]

/-- Every hour produced by the iteration loop lies between the starting
hour and the inclusive upper bound. -/
theorem iterHoursFuel_mem : ∀ (fuel : Nat) (cur toT h : Datetime),
    h ∈ iterHoursFuel fuel cur toT →
    Datetime.leb cur h = true ∧ Datetime.leb h toT = true
  | 0, _, _, _, hm => by simp [iterHoursFuel] at hm
  | fuel + 1, cur, toT, h, hm => by
    rw [iterHoursFuel] at hm
    by_cases hg : Datetime.leb cur toT = true
    · rw [if_pos hg] at hm
      rcases List.mem_cons.mp hm with rfl | hm'
      · exact ⟨leb_refl _, hg⟩
      · have ih := iterHoursFuel_mem fuel (addHour cur) toT h hm'
        exact ⟨leb_trans (ltb_imp_leb (ltb_addHour cur)) ih.1, ih.2⟩
    · rw [if_neg hg] at hm
      simp at hm

/-- Every hour bucket of `_iter_hours(fromT, toT)` lies between the hour
floors of the two bounds. -/
theorem iterHours_mem {fromT toT h : Datetime} (hm : h ∈ iterHours fromT toT) :
    Datetime.leb (hourFloor fromT) h = true ∧ Datetime.leb h (hourFloor toT) = true :=
  iterHoursFuel_mem _ _ _ _ hm

/-! ### Cache-state lemmas for the probe and the hour loop -/

theorem cacheExtends_refl (s : Conn) : cacheExtends s s :=
  ⟨rfl, fun _ h => h, fun _ h => h, fun _ h => h, fun _ h => h, fun _ h => h, fun _ h => h⟩

theorem cacheExtends_trans {a b c : Conn} (h1 : cacheExtends a b) (h2 : cacheExtends b c) :
    cacheExtends a c :=
  ⟨h2.1.trans h1.1,
   fun x h => h2.2.1 x (h1.2.1 x h),
   fun x h => h2.2.2.1 x (h1.2.2.1 x h),
   fun x h => h2.2.2.2.1 x (h1.2.2.2.1 x h),
   fun x h => h2.2.2.2.2.1 x (h1.2.2.2.2.1 x h),
   fun x h => h2.2.2.2.2.2.1 x (h1.2.2.2.2.2.1 x h),
   fun x h => h2.2.2.2.2.2.2 x (h1.2.2.2.2.2.2 x h)⟩

theorem cacheExtends_add_existing_day (s : Conn) (d : Date) (ty : String) :
    cacheExtends s (add_existing_day s d ty) :=
  ⟨rfl, fun _ h => List.mem_cons_of_mem _ h, fun _ h => h, fun _ h => h,
   fun _ h => h, fun _ h => h, fun _ h => h⟩

theorem cacheExtends_add_existing_month (s : Conn) (m : Date) (ty : String) :
    cacheExtends s (add_existing_month s m ty) :=
  ⟨rfl, fun _ h => h, fun _ h => List.mem_cons_of_mem _ h, fun _ h => h,
   fun _ h => h, fun _ h => h, fun _ h => h⟩

theorem cacheExtends_add_existing_year (s : Conn) (y : Nat) (ty : String) :
    cacheExtends s (add_existing_year s y ty) :=
  ⟨rfl, fun _ h => h, fun _ h => h, fun _ h => List.mem_cons_of_mem _ h,
   fun _ h => h, fun _ h => h, fun _ h => h⟩

theorem cacheExtends_add_missing_day (s : Conn) (d : Date) (ty : String) :
    cacheExtends s (add_missing_day s d ty) :=
  ⟨rfl, fun _ h => h, fun _ h => h, fun _ h => h,
   fun _ h => List.mem_cons_of_mem _ h, fun _ h => h, fun _ h => h⟩

theorem cacheExtends_add_missing_month (s : Conn) (m : Date) (ty : String) :
    cacheExtends s (add_missing_month s m ty) :=
  ⟨rfl, fun _ h => h, fun _ h => h, fun _ h => h,
   fun _ h => h, fun _ h => List.mem_cons_of_mem _ h, fun _ h => h⟩

theorem cacheExtends_add_missing_year (s : Conn) (y : Nat) (ty : String) :
    cacheExtends s (add_missing_year s y ty) :=
  ⟨rfl, fun _ h => h, fun _ h => h, fun _ h => h,
   fun _ h => h, fun _ h => h, fun _ h => List.mem_cons_of_mem _ h⟩

/-- Shape of the year block: the caches only grow, the day and month
caches are untouched, and when the block continues the year is recorded
existing. -/
theorem probe_year_stage_spec (net : Net) (s : Conn) (hour : Datetime) (ty : String) :
    cacheExtends s (probe_year_stage net s hour ty).1 ∧
    (probe_year_stage net s hour ty).1.missing_days = s.missing_days ∧
    (probe_year_stage net s hour ty).1.existing_months = s.existing_months ∧
    (probe_year_stage net s hour ty).1.missing_months = s.missing_months ∧
    ((probe_year_stage net s hour ty).2.2 = true →
      (hour.year, ty) ∈ (probe_year_stage net s hour ty).1.existing_years) := by
  simp only [probe_year_stage]
  by_cases h1 : (hour.year, ty) ∈ s.missing_years
  · rw [if_pos h1]
    exact ⟨cacheExtends_refl s, rfl, rfl, rfl, by simp⟩
  · rw [if_neg h1]
    by_cases h2 : (hour.year, ty) ∈ s.existing_years
    · rw [if_pos h2]
      exact ⟨cacheExtends_refl s, rfl, rfl, rfl, fun _ => h2⟩
    · rw [if_neg h2]
      by_cases h3 : (net (get_year_url s.base_url hour.year "snapshots")).1 = 200
      · rw [if_pos h3]
        exact ⟨cacheExtends_add_existing_year s hour.year ty, rfl, rfl, rfl,
          fun _ => List.mem_cons_self _ _⟩
      · rw [if_neg h3]
        exact ⟨cacheExtends_add_missing_year s hour.year ty, rfl, rfl, rfl, by simp⟩

/-- Shape of the month block: the caches only grow, the day and year
caches are untouched, and when the block continues the month is recorded
existing. -/
theorem probe_month_stage_spec (net : Net) (s : Conn) (hour : Datetime) (ty : String) :
    cacheExtends s (probe_month_stage net s hour ty).1 ∧
    (probe_month_stage net s hour ty).1.missing_days = s.missing_days ∧
    (probe_month_stage net s hour ty).1.existing_years = s.existing_years ∧
    ((probe_month_stage net s hour ty).2.2 = true →
      (monthFloor (dateOf hour), ty) ∈ (probe_month_stage net s hour ty).1.existing_months) := by
  simp only [probe_month_stage]
  by_cases h1 : (monthFloor (dateOf hour), ty) ∈ s.missing_months
  · rw [if_pos h1]
    exact ⟨cacheExtends_refl s, rfl, rfl, by simp⟩
  · rw [if_neg h1]
    by_cases h2 : (monthFloor (dateOf hour), ty) ∈ s.existing_months
    · rw [if_pos h2]
      exact ⟨cacheExtends_refl s, rfl, rfl, fun _ => h2⟩
    · rw [if_neg h2]
      by_cases h3 : (net (get_month_url s.base_url hour.year hour.month "snapshots")).1 = 200
      · rw [if_pos h3]
        exact ⟨cacheExtends_add_existing_month s (monthFloor (dateOf hour)) ty, rfl, rfl,
          fun _ => List.mem_cons_self _ _⟩
      · rw [if_neg h3]
        exact ⟨cacheExtends_add_missing_month s (monthFloor (dateOf hour)) ty, rfl, rfl, by simp⟩

/-- Shape of the day block: the caches only grow and the resulting state is
the input state, the input with the day recorded existing, or the input
with the day recorded missing. -/
theorem probe_day_stage_spec (net : Net) (s : Conn) (hour : Datetime) (ty : String) :
    cacheExtends s (probe_day_stage net s hour ty).1 ∧
    ((probe_day_stage net s hour ty).1 = s ∨
     (probe_day_stage net s hour ty).1 = add_existing_day s (dateOf hour) ty ∨
     (probe_day_stage net s hour ty).1 = add_missing_day s (dateOf hour) ty) := by
  simp only [probe_day_stage]
  by_cases h1 : (dateOf hour, ty) ∈ s.missing_days
  · rw [if_pos h1]
    exact ⟨cacheExtends_refl s, Or.inl rfl⟩
  · rw [if_neg h1]
    by_cases h2 : (dateOf hour, ty) ∈ s.existing_days
    · rw [if_pos h2]
      exact ⟨cacheExtends_refl s, Or.inl rfl⟩
    · rw [if_neg h2]
      by_cases h3 : (net (get_day_url s.base_url hour.year hour.month hour.day "snapshots")).1 = 200
      · rw [if_pos h3]
        exact ⟨cacheExtends_add_existing_day s (dateOf hour) ty, Or.inr (Or.inl rfl)⟩
      · rw [if_neg h3]
        exact ⟨cacheExtends_add_missing_day s (dateOf hour) ty, Or.inr (Or.inr rfl)⟩

theorem cacheInv_init (base : String) : CacheInv (initConn base) := by
  intro d ty h
  simp [initConn] at h

/-- `CacheInv` transfers along any state change that keeps the missing-day set
and only grows the existing sets. -/
theorem cacheInv_of_extends {s s' : Conn} (h : CacheInv s) (hext : cacheExtends s s')
    (hmd : s'.missing_days = s.missing_days) : CacheInv s' := by
  intro d ty hmem
  rw [hmd] at hmem
  exact ⟨hext.2.2.2.1 _ (h d ty hmem).1, hext.2.2.1 _ (h d ty hmem).2⟩

theorem cacheInv_add_missing_day {s : Conn} {d : Date} {ty : String} (h : CacheInv s)
    (hy : (d.year, ty) ∈ s.existing_years) (hm : (monthFloor d, ty) ∈ s.existing_months) :
    CacheInv (add_missing_day s d ty) := by
  intro d' ty' hmem
  rcases List.mem_cons.mp hmem with heq | hmem'
  · have hd : d' = d := congrArg Prod.fst heq
    have hty : ty' = ty := congrArg Prod.snd heq
    subst hd
    subst hty
    exact ⟨hy, hm⟩
  · exact h d' ty' hmem'

/-- `_probe_hour` only extends the caches. -/
theorem probe_hour_extends (net : Net) (s : Conn) (hour : Datetime) (ty : String) :
    cacheExtends s (probe_hour net s hour ty).1 := by
  simp only [probe_hour]
  by_cases hy : (probe_year_stage net s hour ty).2.2 = true
  · rw [if_pos hy]
    by_cases hm : (probe_month_stage net (probe_year_stage net s hour ty).1 hour ty).2.2 = true
    · rw [if_pos hm]
      exact cacheExtends_trans (probe_year_stage_spec net s hour ty).1
        (cacheExtends_trans (probe_month_stage_spec net _ hour ty).1
          (probe_day_stage_spec net _ hour ty).1)
    · rw [if_neg hm]
      exact cacheExtends_trans (probe_year_stage_spec net s hour ty).1
        (probe_month_stage_spec net _ hour ty).1
  · rw [if_neg hy]
    exact (probe_year_stage_spec net s hour ty).1

/-- `_probe_hour` preserves the invariant: the only new missing-day record
it can create comes from its day block, which runs only after the year and
month were resolved existing. -/
theorem cacheInv_probe_hour (net : Net) (s : Conn) (hour : Datetime) (ty : String)
    (h : CacheInv s) : CacheInv (probe_hour net s hour ty).1 := by
  simp only [probe_hour]
  have hyspec := probe_year_stage_spec net s hour ty
  have hInv1 : CacheInv (probe_year_stage net s hour ty).1 :=
    cacheInv_of_extends h hyspec.1 hyspec.2.1
  by_cases hy : (probe_year_stage net s hour ty).2.2 = true
  · rw [if_pos hy]
    have hmspec := probe_month_stage_spec net (probe_year_stage net s hour ty).1 hour ty
    have hInv2 : CacheInv (probe_month_stage net (probe_year_stage net s hour ty).1 hour ty).1 :=
      cacheInv_of_extends hInv1 hmspec.1 hmspec.2.1
    by_cases hm : (probe_month_stage net (probe_year_stage net s hour ty).1 hour ty).2.2 = true
    · rw [if_pos hm]
      have hdspec := probe_day_stage_spec net
        (probe_month_stage net (probe_year_stage net s hour ty).1 hour ty).1 hour ty
      dsimp only
      rcases hdspec.2 with h3 | h3 | h3
      · rw [h3]
        exact hInv2
      · rw [h3]
        exact cacheInv_of_extends hInv2 (cacheExtends_add_existing_day _ (dateOf hour) ty) rfl
      · rw [h3]
        have hyearmem : (hour.year, ty) ∈
            (probe_month_stage net (probe_year_stage net s hour ty).1 hour ty).1.existing_years := by
          rw [hmspec.2.2.1]
          exact hyspec.2.2.2.2 hy
        exact cacheInv_add_missing_day hInv2 hyearmem (hmspec.2.2.2 hm)
    · rw [if_neg hm]
      exact hInv2
  · rw [if_neg hy]
    exact hInv1

/-- With the invariant, probing an hour of a day already recorded missing
issues no request and leaves the caches unchanged: the year and month
levels are skipped as known-existing (or stop as known-missing) and the
day level stops at its known-missing check. -/
theorem probe_hour_day_missing (net : Net) (s : Conn) (hour : Datetime) (ty : String)
    (hInv : CacheInv s) (hmem : (dateOf hour, ty) ∈ s.missing_days) :
    probe_hour net s hour ty = (s, []) := by
  have hy : probe_year_stage net s hour ty = (s, [], true) ∨
      probe_year_stage net s hour ty = (s, [], false) := by
    by_cases h1 : (hour.year, ty) ∈ s.missing_years
    · right
      simp only [probe_year_stage]
      rw [if_pos h1]
    · left
      have h2 : (hour.year, ty) ∈ s.existing_years := (hInv (dateOf hour) ty hmem).1
      simp only [probe_year_stage]
      rw [if_neg h1, if_pos h2]
  have hm : probe_month_stage net s hour ty = (s, [], true) ∨
      probe_month_stage net s hour ty = (s, [], false) := by
    by_cases h1 : (monthFloor (dateOf hour), ty) ∈ s.missing_months
    · right
      simp only [probe_month_stage]
      rw [if_pos h1]
    · left
      have h2 : (monthFloor (dateOf hour), ty) ∈ s.existing_months :=
        (hInv (dateOf hour) ty hmem).2
      simp only [probe_month_stage]
      rw [if_neg h1, if_pos h2]
  have hd : probe_day_stage net s hour ty = (s, []) := by
    simp only [probe_day_stage]
    rw [if_pos hmem]
  simp only [probe_hour]
  rcases hy with hy | hy <;> rcases hm with hm | hm <;> simp [hy, hm, hd]

/-- An hour of a day already recorded missing (for kind `snapshots`) is
skipped by `_get_snapshots_in_hour` with no request, no yield, no raise
and no state change: the `_is_day_missing` check short-circuits first. -/
theorem snapshotsInHour_day_missing (net : Net) (s : Conn) (hour : Datetime)
    (hmem : (dateOf hour, "snapshots") ∈ s.missing_days) :
    snapshotsInHour net s hour = (([], none), s, []) := by
  have hd : is_day_missing s (.dt hour) "snapshots" = true := by
    simp [is_day_missing, normalize_date, hmem]
  simp [snapshotsInHour, hd]

/-! ### The hour loop: state extension and error containment -/

theorem snapshotsInHour_extends (net : Net) (s : Conn) (hour : Datetime) :
    cacheExtends s (snapshotsInHour net s hour).2.1 := by
  simp only [snapshotsInHour]
  by_cases h1 : is_day_missing s (.dt hour) "snapshots" = true
  · rw [if_pos h1]
    exact cacheExtends_refl s
  · rw [if_neg h1]
    by_cases h2 : (net (hourListingUrl s.base_url hour)).1 = 200
    · rw [if_pos h2]
      exact cacheExtends_refl s
    · rw [if_neg h2]
      exact probe_hour_extends net s hour "snapshots"

theorem cacheInv_snapshotsInHour (net : Net) (s : Conn) (hour : Datetime) (h : CacheInv s) :
    CacheInv (snapshotsInHour net s hour).2.1 := by
  simp only [snapshotsInHour]
  by_cases h1 : is_day_missing s (.dt hour) "snapshots" = true
  · rw [if_pos h1]
    exact h
  · rw [if_neg h1]
    by_cases h2 : (net (hourListingUrl s.base_url hour)).1 = 200
    · rw [if_pos h2]
      exact h
    · rw [if_neg h2]
      exact cacheInv_probe_hour net s hour "snapshots" h

theorem runHours_extends (net : Net) : ∀ (hours : List Datetime) (s : Conn),
    cacheExtends s (runHours net s hours).2.1
  | [], s => cacheExtends_refl s
  | h :: rest, s => by
    simp only [runHours]
    by_cases hc : continuesAfter (snapshotsInHour net s h).1.2 = true
    · rw [if_pos hc]
      exact cacheExtends_trans (snapshotsInHour_extends net s h)
        (runHours_extends net rest (snapshotsInHour net s h).2.1)
    · rw [if_neg hc]
      exact snapshotsInHour_extends net s h

theorem cacheInv_runHours (net : Net) : ∀ (hours : List Datetime) (s : Conn),
    CacheInv s → CacheInv (runHours net s hours).2.1
  | [], _, h => h
  | h :: rest, s, hInv => by
    simp only [runHours]
    by_cases hc : continuesAfter (snapshotsInHour net s h).1.2 = true
    · rw [if_pos hc]
      exact cacheInv_runHours net rest (snapshotsInHour net s h).2.1
        (cacheInv_snapshotsInHour net s h hInv)
    · rw [if_neg hc]
      exact cacheInv_snapshotsInHour net s h hInv

/-- The hour loop never terminates with the caught `ConnectorException`:
a raised connector error always makes the loop continue instead. -/
theorem runHours_no_connector (net : Net) : ∀ (hours : List Datetime) (s : Conn) (msg : String),
    (runHours net s hours).1.2 ≠ some (.connectorError msg)
  | [], s, msg => by simp [runHours]
  | h :: rest, s, msg => by
    simp only [runHours]
    by_cases hc : continuesAfter (snapshotsInHour net s h).1.2 = true
    · rw [if_pos hc]
      exact runHours_no_connector net rest (snapshotsInHour net s h).2.1 msg
    · rw [if_neg hc]
      intro hcontra
      apply hc
      have h2 : (snapshotsInHour net s h).1.2 = some (.connectorError msg) := hcontra
      rw [h2]
      rfl

/-- Inversion of a successful `get_snapshots` call: both bounds
normalized, the range was valid, and the result is the hour loop's. -/
theorem get_snapshots_ok {net : Net} {now : Datetime} {s : Conn} {fv : TimeVal}
    {tv : Option TimeVal} {r} (h : get_snapshots net now s fv tv = .ok r) :
    ∃ fromT toT, normalize_time fv false = .ok fromT ∧
      normalize_time (tv.getD (.dt now)) false = .ok toT ∧
      Datetime.leb toT fromT = false ∧
      r = runHours net s (iterHours fromT toT) := by
  rcases hn1 : normalize_time fv false with e1 | fromT
  · simp only [get_snapshots, hn1] at h
    exact Except.noConfusion h
  · rcases hn2 : normalize_time (tv.getD (.dt now)) false with e2 | toT
    · simp only [get_snapshots, hn1, hn2] at h
      exact Except.noConfusion h
    · simp only [get_snapshots, hn1, hn2] at h
      by_cases hle : Datetime.leb toT fromT = true
      · rw [if_pos hle] at h
        simp at h
      · rw [if_neg hle] at h
        refine ⟨fromT, toT, rfl, rfl, by simpa using hle, ?_⟩
        exact (Except.ok.inj h).symm

/-- C4: inside one `get_snapshots` call, an hour whose listing fetch
returns a non-200 status (where the day was not known-missing) yields no
records for that hour, runs `_probe_hour` to update the existence cache,
and raises only the `ConnectorException` that the hour loop catches: the
loop's entries and final outcome are exactly those of the remaining hours
run from the probed state, and a successful `get_snapshots` call never
ends in a `ConnectorException`. -/
theorem c4_hour_failure_recovery (net : Net) (s : Conn) (hour : Datetime)
    (rest : List Datetime)
    (hmiss : is_day_missing s (.dt hour) "snapshots" = false)
    (hst : (net (hourListingUrl s.base_url hour)).1 ≠ 200) :
    snapshotsInHour net s hour =
      (([], some (.connectorError ("Response status: " ++
          natToStr (net (hourListingUrl s.base_url hour)).1))),
        (probe_hour net s hour "snapshots").1,
        hourListingUrl s.base_url hour :: (probe_hour net s hour "snapshots").2) ∧
    (runHours net s (hour :: rest)).1.1 =
      (runHours net (probe_hour net s hour "snapshots").1 rest).1.1 ∧
    (runHours net s (hour :: rest)).1.2 =
      (runHours net (probe_hour net s hour "snapshots").1 rest).1.2 ∧
    (∀ (net2 : Net) (now : Datetime) (s2 : Conn) (fv : TimeVal) (tv : Option TimeVal) r msg,
      get_snapshots net2 now s2 fv tv = .ok r → r.1.2 ≠ some (.connectorError msg)) := by
  have hi : snapshotsInHour net s hour =
      (([], some (.connectorError ("Response status: " ++
          natToStr (net (hourListingUrl s.base_url hour)).1))),
        (probe_hour net s hour "snapshots").1,
        hourListingUrl s.base_url hour :: (probe_hour net s hour "snapshots").2) := by
    simp only [snapshotsInHour]
    rw [if_neg (by simp [hmiss]), if_neg hst]
  refine ⟨hi, ?_, ?_, ?_⟩
  · simp only [runHours, hi, continuesAfter, if_true]
    simp
  · simp only [runHours, hi, continuesAfter, if_true]
  · intro net2 now s2 fv tv r msg hok
    obtain ⟨fromT, toT, _, _, _, hr⟩ := get_snapshots_ok hok
    rw [hr]
    exact runHours_no_connector net2 _ s2 msg

/-- C4, witness: on the fixture archive from a fresh connector, the
hour-00 listing fetch fails with 404 and is recovered as the claim says,
the hour-03 records still being produced by the rest of the loop, and the
fixture `get_snapshots` run does not end in a `ConnectorException`. -/
theorem c4_hour_failure_recovery_witness :
    (snapshotsInHour fixtureNet (initConn fixtureBase) ⟨2015, 1, 4, 0, 0, 0, 0⟩ =
      (([], some (.connectorError ("Response status: " ++
          natToStr (fixtureNet (hourListingUrl (initConn fixtureBase).base_url
            ⟨2015, 1, 4, 0, 0, 0, 0⟩)).1))),
        (probe_hour fixtureNet (initConn fixtureBase) ⟨2015, 1, 4, 0, 0, 0, 0⟩ "snapshots").1,
        hourListingUrl (initConn fixtureBase).base_url ⟨2015, 1, 4, 0, 0, 0, 0⟩ ::
          (probe_hour fixtureNet (initConn fixtureBase) ⟨2015, 1, 4, 0, 0, 0, 0⟩ "snapshots").2)) ∧
    (runHours fixtureNet (initConn fixtureBase)
        (⟨2015, 1, 4, 0, 0, 0, 0⟩ :: [⟨2015, 1, 4, 3, 0, 0, 0⟩])).1.1 =
      (runHours fixtureNet
        (probe_hour fixtureNet (initConn fixtureBase) ⟨2015, 1, 4, 0, 0, 0, 0⟩ "snapshots").1
        [⟨2015, 1, 4, 3, 0, 0, 0⟩]).1.1 ∧
    (runHours fixtureNet (initConn fixtureBase)
        (⟨2015, 1, 4, 0, 0, 0, 0⟩ :: [⟨2015, 1, 4, 3, 0, 0, 0⟩])).1.2 =
      (runHours fixtureNet
        (probe_hour fixtureNet (initConn fixtureBase) ⟨2015, 1, 4, 0, 0, 0, 0⟩ "snapshots").1
        [⟨2015, 1, 4, 3, 0, 0, 0⟩]).1.2 ∧
    (runHours fixtureNet (initConn fixtureBase)
        (iterHours ⟨2015, 1, 4, 0, 0, 0, 0⟩ ⟨2015, 1, 4, 6, 0, 0, 0⟩)).1.2 ≠
      some (.connectorError "Response status: 404") :=
  have main := c4_hour_failure_recovery fixtureNet (initConn fixtureBase)
    ⟨2015, 1, 4, 0, 0, 0, 0⟩ [⟨2015, 1, 4, 3, 0, 0, 0⟩] (by decide) (by decide)
  ⟨main.1, main.2.1, main.2.2.1,
    main.2.2.2 fixtureNet ⟨2015, 1, 1, 0, 0, 0, 0⟩ (initConn fixtureBase)
      (.dt ⟨2015, 1, 4, 0, 0, 0, 0⟩) (some (.dt ⟨2015, 1, 4, 6, 0, 0, 0⟩)) _
      "Response status: 404" (by rfl)⟩

/-! ### Hour buckets of yielded entries (for the amended C1) -/

/-- Every entry built from a listing whose matches all parse into hour `h`
has its timestamp in hour `h`. -/
theorem buildEntries_mem_floor (dirUrl : String) (h : Datetime) :
    ∀ (ms : List SnapMatch), (∀ m ∈ ms, parsesToHour m h = true) →
      ∀ e ∈ (buildEntries dirUrl ms).1, hourFloor e.time = h
  | [], _, e, he => by simp [buildEntries] at he
  | m :: ms, hall, e, he => by
    have hm := hall m (List.mem_cons_self m ms)
    simp only [parsesToHour] at hm
    rcases hp : parseSnapMatch m with err | t
    · rw [hp] at hm
      exact absurd hm (by simp)
    · rw [hp] at hm
      have hfl : hourFloor t = h := by simpa using hm
      simp only [buildEntries, hp] at he
      have he' : e ∈ (⟨m.group1, t, urljoin dirUrl m.group1⟩ : SnapshotEntry) ::
          (buildEntries dirUrl ms).1 := he
      rcases List.mem_cons.mp he' with rfl | htail
      · exact hfl
      · exact buildEntries_mem_floor dirUrl h ms
          (fun m' hm' => hall m' (List.mem_cons_of_mem _ hm')) e htail

/-- Every entry yielded for an hour bucket whose listing is
hour-consistent has its timestamp in that bucket. -/
theorem snapshotsInHour_entries_floor (net : Net) (s : Conn) (hour : Datetime)
    (hcons : ∀ m ∈ findSnapshots (net (hourListingUrl s.base_url hour)).2,
      parsesToHour m hour = true) :
    ∀ e ∈ (snapshotsInHour net s hour).1.1, hourFloor e.time = hour := by
  simp only [snapshotsInHour]
  by_cases h1 : is_day_missing s (.dt hour) "snapshots" = true
  · rw [if_pos h1]
    intro e he
    simp at he
  · rw [if_neg h1]
    by_cases h2 : (net (hourListingUrl s.base_url hour)).1 = 200
    · rw [if_pos h2]
      exact buildEntries_mem_floor _ hour _ hcons
    · rw [if_neg h2]
      intro e he
      simp at he

/-- Every entry produced by the hour loop comes from one of its hour
buckets (when each bucket's listing is hour-consistent). -/
theorem runHours_entries_floor (net : Net) (B : String) :
    ∀ (hours : List Datetime) (s : Conn), s.base_url = B →
    (∀ h ∈ hours, ∀ m ∈ findSnapshots (net (hourListingUrl B h)).2, parsesToHour m h = true) →
    ∀ e ∈ (runHours net s hours).1.1, ∃ h ∈ hours, hourFloor e.time = h
  | [], s, _, _, e, he => by simp [runHours] at he
  | h :: rest, s, hb, hall, e, he => by
    simp only [runHours] at he
    by_cases hc : continuesAfter (snapshotsInHour net s h).1.2 = true
    · rw [if_pos hc] at he
      have he' : e ∈ (snapshotsInHour net s h).1.1 ++
          (runHours net (snapshotsInHour net s h).2.1 rest).1.1 := he
      rcases List.mem_append.mp he' with h1 | h1
      · refine ⟨h, List.mem_cons_self _ _, ?_⟩
        exact snapshotsInHour_entries_floor net s h
          (by rw [hb]; exact hall h (List.mem_cons_self _ _)) e h1
      · have hb2 : (snapshotsInHour net s h).2.1.base_url = B := by
          rw [(snapshotsInHour_extends net s h).1, hb]
        obtain ⟨h', hmem, hfl⟩ := runHours_entries_floor net B rest _ hb2
          (fun hh hm => hall hh (List.mem_cons_of_mem _ hm)) e h1
        exact ⟨h', List.mem_cons_of_mem _ hmem, hfl⟩
    · rw [if_neg hc] at he
      have h1 : e ∈ (snapshotsInHour net s h).1.1 := he
      refine ⟨h, List.mem_cons_self _ _, ?_⟩
      exact snapshotsInHour_entries_floor net s h
        (by rw [hb]; exact hall h (List.mem_cons_self _ _)) e h1

/-- C1, amended: `get_snapshots` performs no `[a, b)` filtering of its
own; what holds instead is bucket-level containment: provided every file
listed in an hour bucket of the range carries a timestamp of that hour,
every yielded entry's timestamp lies in a bucket between the hour floor of
`a` and the hour floor of `b` inclusive — so a record may precede `a`
within the first bucket or reach past `b` within the last bucket. -/
theorem c1_range_amended (net : Net) (now : Datetime) (s : Conn) (fv : TimeVal)
    (tv : Option TimeVal) (fromT toT : Datetime) {r}
    (h1 : normalize_time fv false = .ok fromT)
    (h2 : normalize_time (tv.getD (.dt now)) false = .ok toT)
    (hok : get_snapshots net now s fv tv = .ok r)
    (hcons : ∀ h ∈ iterHours fromT toT,
      ∀ m ∈ findSnapshots (net (hourListingUrl s.base_url h)).2, parsesToHour m h = true) :
    ∀ e ∈ r.1.1,
      Datetime.leb (hourFloor fromT) e.time = true ∧
      Datetime.leb (hourFloor e.time) (hourFloor toT) = true := by
  obtain ⟨fromT', toT', h1', h2', hlt, hr⟩ := get_snapshots_ok hok
  rw [h1] at h1'
  rw [h2] at h2'
  obtain rfl : fromT = fromT' := Except.ok.inj h1'
  obtain rfl : toT = toT' := Except.ok.inj h2'
  intro e he
  rw [hr] at he
  obtain ⟨h, hmem, hfl⟩ := runHours_entries_floor net s.base_url (iterHours fromT toT) s rfl
    hcons e he
  have hbounds := iterHours_mem hmem
  constructor
  · rw [← hfl] at hbounds
    exact leb_trans hbounds.1 (leb_hourFloor e.time)
  · rw [hfl]
    exact hbounds.2

/-- C1 amended, witness: the one entry of the fixture run over
00:00..06:00 sits in a bucket between the two hour floors. -/
theorem c1_range_amended_witness :
    Datetime.leb (hourFloor ⟨2015, 1, 4, 0, 0, 0, 0⟩) fixtureEntry.time = true ∧
    Datetime.leb (hourFloor fixtureEntry.time) (hourFloor ⟨2015, 1, 4, 6, 0, 0, 0⟩) = true :=
  c1_range_amended fixtureNet ⟨2015, 1, 1, 0, 0, 0, 0⟩ (initConn fixtureBase)
    (.dt ⟨2015, 1, 4, 0, 0, 0, 0⟩) (some (.dt ⟨2015, 1, 4, 6, 0, 0, 0⟩))
    ⟨2015, 1, 4, 0, 0, 0, 0⟩ ⟨2015, 1, 4, 6, 0, 0, 0⟩ rfl rfl (by rfl) (by decide)
    fixtureEntry (by decide)

/-! ### Reachable connector states and permanence of missing records -/

theorem cacheInv_reachable {base : String} {s : Conn} (h : Reachable base s) : CacheInv s := by
  induction h with
  | init => exact cacheInv_init base
  | probe net hour ty _ ih => exact cacheInv_probe_hour _ _ _ _ ih
  | snaps net now fv tv _ hok ih =>
    obtain ⟨fromT, toT, _, _, _, hr⟩ := get_snapshots_ok hok
    rw [hr]
    exact cacheInv_runHours _ _ _ ih

/-- A loop over hours that all fall in missing days does nothing at all. -/
theorem runHours_all_missing (net : Net) :
    ∀ (hours : List Datetime) (s : Conn),
    (∀ h ∈ hours, (dateOf h, "snapshots") ∈ s.missing_days) →
    runHours net s hours = (([], none), s, [])
  | [], _, _ => rfl
  | h :: rest, s, hall => by
    have hsi := snapshotsInHour_day_missing net s h (hall h (List.mem_cons_self _ _))
    simp only [runHours, hsi, continuesAfter, if_true]
    rw [runHours_all_missing net rest s (fun hh hm => hall hh (List.mem_cons_of_mem _ hm))]
    simp

/-- C5: once `(day, kind)` is recorded missing, in any reachable connector
state: (a) probing any hour of that day for that kind issues zero requests
and changes nothing; (b) the discovery step for any hour of that day (kind
`snapshots`) short-circuits at the day-missing check with zero requests;
(c) a whole `get_snapshots` call whose hour buckets all fall in that day
succeeds with no entries, no requests and no state change; and (d)/(e) no
probe or `get_snapshots` operation ever removes a cache record (in
particular no missing-record). -/
theorem c5_missing_day_permanent (base : String) (s : Conn) (hreach : Reachable base s)
    (d : Date) (ty : String) (hmem : (d, ty) ∈ s.missing_days) :
    (∀ (net : Net) (hour : Datetime), dateOf hour = d → probe_hour net s hour ty = (s, [])) ∧
    (ty = "snapshots" → ∀ (net : Net) (hour : Datetime), dateOf hour = d →
      snapshotsInHour net s hour = (([], none), s, [])) ∧
    (ty = "snapshots" → ∀ (net : Net) (now : Datetime) (fv : TimeVal) (tv : Option TimeVal)
      (fromT toT : Datetime),
      normalize_time fv false = .ok fromT →
      normalize_time (tv.getD (.dt now)) false = .ok toT →
      Datetime.leb toT fromT = false →
      (∀ h ∈ iterHours fromT toT, dateOf h = d) →
      get_snapshots net now s fv tv = .ok (([], none), s, [])) ∧
    (∀ (net : Net) (s2 : Conn) (hour : Datetime) (ty2 : String),
      cacheExtends s2 (probe_hour net s2 hour ty2).1) ∧
    (∀ (net : Net) (now : Datetime) (s2 : Conn) (fv : TimeVal) (tv : Option TimeVal) r,
      get_snapshots net now s2 fv tv = .ok r → cacheExtends s2 r.2.1) := by
  have hInv : CacheInv s := cacheInv_reachable hreach
  refine ⟨?_, ?_, ?_, ?_, ?_⟩
  · intro net hour hdh
    exact probe_hour_day_missing net s hour ty hInv (by rw [hdh]; exact hmem)
  · intro hty net hour hdh
    subst hty
    exact snapshotsInHour_day_missing net s hour (by rw [hdh]; exact hmem)
  · intro hty net now fv tv fromT toT h1 h2 h3 hall
    subst hty
    have hrun : runHours net s (iterHours fromT toT) = (([], none), s, []) :=
      runHours_all_missing net _ s (fun h hm => by rw [hall h hm]; exact hmem)
    simp only [get_snapshots, h1, h2]
    rw [if_neg (by simp [h3]), hrun]
  · intro net s2 hour ty2
    exact probe_hour_extends net s2 hour ty2
  · intro net now s2 fv tv r hok
    obtain ⟨fromT, toT, _, _, _, hr⟩ := get_snapshots_ok hok
    rw [hr]
    exact runHours_extends net _ s2

/-- C5, witness: in the probed state the day is recorded missing, and both
a new probe of another hour of that day and the discovery step for it do
nothing and issue zero requests. -/
theorem c5_missing_day_permanent_witness :
    ((⟨2015, 1, 4⟩ : Date), "snapshots") ∈ c5state.missing_days ∧
    probe_hour c5net c5state ⟨2015, 1, 4, 5, 0, 0, 0⟩ "snapshots" = (c5state, []) ∧
    snapshotsInHour c5net c5state ⟨2015, 1, 4, 5, 0, 0, 0⟩ = (([], none), c5state, []) := by
  have hreach : Reachable fixtureBase c5state :=
    Reachable.probe c5net ⟨2015, 1, 4, 0, 0, 0, 0⟩ "snapshots" Reachable.init
  have hmem : ((⟨2015, 1, 4⟩ : Date), "snapshots") ∈ c5state.missing_days := by decide
  have main := c5_missing_day_permanent fixtureBase c5state hreach ⟨2015, 1, 4⟩ "snapshots" hmem
  exact ⟨hmem, main.1 c5net ⟨2015, 1, 4, 5, 0, 0, 0⟩ rfl,
    main.2.1 rfl c5net ⟨2015, 1, 4, 5, 0, 0, 0⟩ rfl⟩
